import Mathlib

/-!
Shallow embedding of the ade791x driver (ADE7912/ADE7913 sigma-delta ADC driver)
and proofs about its register codec, SPI transaction layer, reset polling,
burst-read frame decoding, and polyphase synchronization logic.

Machine bytes are modelled as `Nat` with explicit `% 256` wrapping; signed
16/32-bit quantities as `Int` with explicit two's-complement reinterpretation.
The SPI bus together with the chip-select pins and the delay source is
modelled as an explicit state (`Bus`): an oracle supplying the bytes the
devices return, a transfer counter, and a log of wire events.
-/

namespace Ade791xModel

/-- Chip variant (ADE7912 = dual, ADE7913 = triple). -/
inductive Chip
  | ADE7912
  | ADE7913
deriving DecidableEq

/-- ADC output frequency selector (Config bits 4:5). -/
inductive AdcFreqVal
  | KHz8
  | KHz4
  | KHz2
  | KHz1
deriving DecidableEq

/-- Decode of `From<u8> for AdcFreqVal`: `match x & 0x03`. -/
def AdcFreqVal.fromByte (x : Nat) : AdcFreqVal :=
  match x &&& 0x03 with
  | 0 => AdcFreqVal.KHz8
  | 1 => AdcFreqVal.KHz4
  | 2 => AdcFreqVal.KHz2
  | _ => AdcFreqVal.KHz1

/-- The `repr(u8)` discriminant of `AdcFreqVal`. -/
def AdcFreqVal.toByte : AdcFreqVal → Nat
  | AdcFreqVal.KHz8 => 0x00
  | AdcFreqVal.KHz4 => 0x01
  | AdcFreqVal.KHz2 => 0x02
  | AdcFreqVal.KHz1 => 0x03

/-- Configuration register fields (one packed byte on the device). -/
structure Config where
  clkout_en : Bool
  pwrdwn_en : Bool
  temp_en : Bool
  adc_freq : AdcFreqVal
  swrst : Bool
  bw : Bool
deriving DecidableEq

/-- `Config::default()`: all fields false, 8 kHz. -/
def Config.default : Config :=
  { clkout_en := false, pwrdwn_en := false, temp_en := false
    adc_freq := AdcFreqVal.KHz8, swrst := false, bw := false }

instance : Inhabited Config := ⟨Config.default⟩

/-- Decode of `From<u8> for Config`. -/
def Config.fromByte (x : Nat) : Config :=
  { clkout_en := x &&& 0x01 != 0
    pwrdwn_en := x &&& 0x04 != 0
    temp_en := x &&& 0x08 != 0
    adc_freq := AdcFreqVal.fromByte ((x &&& 0x30) >>> 4)
    swrst := x &&& 0x40 != 0
    bw := x &&& 0x80 != 0 }

/-- Encode of `From<Config> for u8`. -/
def Config.toByte (x : Config) : Nat :=
  x.bw.toNat <<< 7 |||
    x.swrst.toNat <<< 6 |||
    x.adc_freq.toByte <<< 4 |||
    x.temp_en.toNat <<< 3 |||
    x.pwrdwn_en.toNat <<< 2 |||
    x.clkout_en.toNat

/-- Status0 register fields. -/
structure Status0 where
  reset_on : Bool
  crc_stat : Bool
  ic_prot : Bool
deriving DecidableEq

/-- Decode of `From<u8> for Status0`. -/
def Status0.fromByte (x : Nat) : Status0 :=
  { reset_on := x &&& 0x01 != 0
    crc_stat := x &&& 0x02 != 0
    ic_prot := x &&& 0x04 != 0 }

/-- The register file of the device. -/
inductive Register
  | Iwv
  | V1wv
  | V2wv
  | AdcCrc
  | CtrlCrc
  | CntSnapshot
  | Config
  | Status0
  | Lock
  | SyncSnap
  | Counter0
  | Counter1
  | EmiCtrl
  | Status1
  | Tempos
deriving DecidableEq

/-- `Register::addr`. -/
def Register.addr : Register → Nat
  | Register.Iwv => 0x00
  | Register.V1wv => 0x01
  | Register.V2wv => 0x02
  | Register.AdcCrc => 0x04
  | Register.CtrlCrc => 0x05
  | Register.CntSnapshot => 0x07
  | Register.Config => 0x08
  | Register.Status0 => 0x09
  | Register.Lock => 0x0A
  | Register.SyncSnap => 0x0B
  | Register.Counter0 => 0x0C
  | Register.Counter1 => 0x0D
  | Register.EmiCtrl => 0x0E
  | Register.Status1 => 0x0F
  | Register.Tempos => 0x18

/-- `Register::is_read_only`: all registers except the six writable ones. -/
def Register.is_read_only (r : Register) : Bool :=
  r != Register.Config &&
    r != Register.Lock &&
    r != Register.SyncSnap &&
    r != Register.Counter0 &&
    r != Register.Counter1 &&
    r != Register.EmiCtrl

/-- `Register::is_write_only`: Lock and SyncSnap. -/
def Register.is_write_only (r : Register) : Bool :=
  r == Register.Lock || r == Register.SyncSnap

/-- SPI operation code appended to the shifted register address. -/
def spiOpRead : Nat := 0x04

/-- SPI operation code for a register write. -/
def spiOpWrite : Nat := 0x00

/-- Lock register payload enabling write protection. -/
def lockOpEnable : Nat := 0xCA

/-- Lock register payload disabling write protection. -/
def lockOpDisable : Nat := 0x9C

/-- Reinterpret a `u16` bit pattern as a signed 16-bit value (`as i16`). -/
def toI16 (x : Nat) : Int :=
  if x % 65536 < 32768 then ((x % 65536 : Nat) : Int) else ((x % 65536 : Nat) : Int) - 65536

/-- Wrap an integer to the signed 16-bit range (release-mode `i16` arithmetic). -/
def wrapI16 (v : Int) : Int := (v + 32768) % 65536 - 32768

/-- Truncate to a `u16` bit pattern. -/
def u16 (x : Nat) : Nat := x % 65536

/-- Wrapping `u16` subtraction: both arguments below `2 * 65536`. -/
def u16sub (a b : Nat) : Nat := (u16 a + 65536 - u16 b) % 65536

/-- Reinterpret a bit pattern as a signed 32-bit value (`i32::from_be_bytes` result). -/
def toI32 (p : Nat) : Int :=
  if p % 4294967296 < 2147483648 then ((p % 4294967296 : Nat) : Int)
  else ((p % 4294967296 : Nat) : Int) - 4294967296

/-- Two's-complement bit pattern of a signed 32-bit value. -/
def patOf (v : Int) : Nat := (v % 4294967296).toNat

/-- Rust `i32` left shift by 8 (the top 8 bits are discarded). -/
def i32shl8 (v : Int) : Int := toI32 (patOf v * 256)

/-- Rust `i32` arithmetic right shift by 8 (floor division by 256). -/
def i32sar8 (v : Int) : Int := Int.fdiv v 256

/-- Big-endian 32-bit pattern from four bytes. -/
def be32 (b0 b1 b2 b3 : Nat) : Nat := ((b0 * 256 + b1) * 256 + b2) * 256 + b3

/-- Byte `i` of a frame, with out-of-range reads giving 0 and wrapping to `u8`. -/
def byte (f : List Nat) (i : Nat) : Nat := f.getD i 0 % 256

/-- Decoded burst-read frame (`From<[u8; 15]> for BurstRead`). -/
structure BurstRead where
  iwv : Int
  v1wv : Int
  v2wv : Int
  adc_crc : Nat
  status0 : Status0
  cnt_snapshot : Nat
deriving DecidableEq

/-- The burst-read frame decoder: each 24-bit sample is taken from a 4-byte
big-endian window read as `i32`, shifted left 8 then arithmetic-right 8. -/
def BurstRead.ofFrame (x : List Nat) : BurstRead :=
  { iwv := i32sar8 (i32shl8 (toI32 (be32 (byte x 0) (byte x 1) (byte x 2) (byte x 3))))
    v1wv := i32sar8 (i32shl8 (toI32 (be32 (byte x 3) (byte x 4) (byte x 5) (byte x 6))))
    v2wv := i32sar8 (i32shl8 (toI32 (be32 (byte x 6) (byte x 7) (byte x 8) (byte x 9))))
    adc_crc := byte x 10 * 256 + byte x 11
    status0 := Status0.fromByte (byte x 12)
    cnt_snapshot := byte x 13 * 256 + byte x 14 }

/-- Spec-side sign extension of the low 24 bits of a pattern, used to compare
the decoder against the specification's description of it. -/
def signExt24 (p : Nat) : Int :=
  if p % 16777216 < 8388608 then ((p % 16777216 : Nat) : Int)
  else ((p % 16777216 : Nat) : Int) - 16777216

/-- Driver errors (`Error<S, P>`); `Panic` models an out-of-bounds index of
the empty device array, which panics in the source. -/
inductive Err
  | SpiError
  | PinError
  | ResetTimeout
  | ReadOnlyRegister
  | WriteOnlyRegister
  | BurstReadNotPermitted
  | RegisterContentMismatch
  | Panic
deriving DecidableEq

/-- Wire / environment events, in the order they happen. -/
inductive Ev
  | csLow (dev : Nat)
  | csHigh (dev : Nat)
  | xfer (dev : Nat) (sent recv : List Nat)
  | delayMs (ms : Nat)
deriving DecidableEq

/-- The environment: an oracle giving the byte the devices place on the bus
during transfer number `k` at position `j`, the transfer counter, and the log. -/
structure Bus where
  oracle : Nat → Nat → Nat
  k : Nat
  log : List Ev

/-- A fresh bus with a given oracle. -/
def mkBus (o : Nat → Nat → Nat) : Bus := { oracle := o, k := 0, log := [] }

/-- Bytes received during transfer `k` when `n` bytes are clocked. -/
def recvBytes (o : Nat → Nat → Nat) (k n : Nat) : List Nat :=
  (List.range n).map fun j => o k j % 256

/-- Full-duplex transfer of a buffer: the sent bytes are logged and the
received bytes (same length) come from the oracle. -/
def Bus.doXfer (b : Bus) (dev : Nat) (sent : List Nat) : List Nat × Bus :=
  let recv := recvBytes b.oracle b.k sent.length
  (recv, { b with k := b.k + 1, log := b.log ++ [Ev.xfer dev sent recv] })

/-- Drive a chip-select line low. -/
def Bus.csLow (b : Bus) (dev : Nat) : Bus := { b with log := b.log ++ [Ev.csLow dev] }

/-- Drive a chip-select line high. -/
def Bus.csHigh (b : Bus) (dev : Nat) : Bus := { b with log := b.log ++ [Ev.csHigh dev] }

/-- Blocking delay. -/
def Bus.delay (b : Bus) (ms : Nat) : Bus := { b with log := b.log ++ [Ev.delayMs ms] }

/-- Symbolic `f32` values the driver stores in the calibration record. The
claims proved here never compute with them, so they are kept opaque tokens. -/
inductive FV
  | ofI8 (v : Int)
  | c821015em5
  | c872101em5
  | zero
  | one
  | user (id : Nat)
deriving DecidableEq

/-- Calibration offsets (`CalibrationOffset`). -/
structure CalibrationOffset where
  current : FV
  voltage : FV
  aux : Option FV
deriving DecidableEq

/-- Calibration gains (`CalibrationGain`). -/
structure CalibrationGain where
  current : FV
  voltage : FV
  aux : Option FV
deriving DecidableEq

/-- Calibration record. -/
structure Calibration where
  offset : CalibrationOffset
  gain : CalibrationGain
deriving DecidableEq

/-- Default calibration: zero offsets, unit gains, aux fields unset. -/
def Calibration.default : Calibration :=
  { offset := { current := FV.zero, voltage := FV.zero, aux := none }
    gain := { current := FV.one, voltage := FV.one, aux := none } }

/-- Single-device engine state (`ade791x::Ade791x`): chip-select line id, chip
variant, cached configuration, calibration. -/
structure Engine where
  cs : Nat
  chip : Chip
  config : Config
  calibration : Calibration

instance : Inhabited Engine :=
  ⟨{ cs := 0, chip := Chip.ADE7912, config := Config.default
     calibration := Calibration.default }⟩

/-- Reinterpret a byte as a signed 8-bit value (`as i8`). -/
def toI8 (x : Nat) : Int :=
  if x % 256 < 128 then ((x % 256 : Nat) : Int) else ((x % 256 : Nat) : Int) - 256

/-- Error propagation of the `?` operator: on success continue with the value
and the bus, on error stop with the bus as it stands. -/
def andThen {A B : Type} (r : Except Err A × Bus) (f : A → Bus → Except Err B × Bus) :
    Except Err B × Bus :=
  match r with
  | (Except.error er, b1) => (Except.error er, b1)
  | (Except.ok a, b1) => f a b1

theorem andThen_ok {A B : Type} (a : A) (b : Bus) (f : A → Bus → Except Err B × Bus) :
    andThen (Except.ok a, b) f = f a b := rfl

theorem andThen_error {A B : Type} (er : Err) (b : Bus) (f : A → Bus → Except Err B × Bus) :
    andThen (Except.error er, b) f = (Except.error er, b) := rfl

/-- `read_reg`: refuse write-only registers, else a two-byte full-duplex
transfer `[(addr << 3) | 0x04, 0]` framed by the chip select. -/
def Engine.read_reg (e : Engine) (reg : Register) (b : Bus) : Except Err (List Nat) × Bus :=
  if reg.is_write_only then (Except.error Err.WriteOnlyRegister, b)
  else
    let b1 := b.csLow e.cs
    let r := b1.doXfer e.cs [reg.addr <<< 3 ||| spiOpRead, 0]
    (Except.ok r.1, r.2.csHigh e.cs)

/-- `write_reg`: refuse read-only registers, else send `[(addr << 3) | 0x00, content]`. -/
def Engine.write_reg (e : Engine) (reg : Register) (content : Nat) (b : Bus) :
    Except Err Unit × Bus :=
  if reg.is_read_only then (Except.error Err.ReadOnlyRegister, b)
  else
    let b1 := b.csLow e.cs
    let r := b1.doXfer e.cs [reg.addr <<< 3 ||| spiOpWrite, content]
    (Except.ok (), r.2.csHigh e.cs)

/-- `write_reg_checked`: write, read back, and fail on mismatch. -/
def Engine.write_reg_checked (e : Engine) (reg : Register) (content : Nat) (b : Bus) :
    Except Err Unit × Bus :=
  andThen (e.write_reg reg content b) fun _ b1 =>
    andThen (e.read_reg reg b1) fun recv b2 =>
      if recv.getD 1 0 != content then (Except.error Err.RegisterContentMismatch, b2)
      else (Except.ok (), b2)

/-- Start offset of a burst read in the canonical 15-byte frame. -/
def burstStartIndex : Register → Option Nat
  | Register.Iwv => some 1
  | Register.V1wv => some 4
  | Register.V2wv => some 7
  | Register.AdcCrc => some 10
  | Register.Status0 => some 12
  | Register.CntSnapshot => some 13
  | _ => none

/-- Overwrite `l` starting at position `i` with the bytes of `seg`
(the semantics of `copy_within` / slice `fill` on the frame buffer). -/
def overwriteAt (l : List Nat) (i : Nat) (seg : List Nat) : List Nat :=
  l.take i ++ seg ++ l.drop (i + seg.length)

/-- `burst_read`: transfer `len + 1` bytes of the 15-byte buffer, then move the
received payload to its canonical offset and zero-fill the bytes below it. -/
def Engine.burst_read (e : Engine) (start_reg : Register) (len : Nat) (b : Bus) :
    Except Err (List Nat) × Bus :=
  match burstStartIndex start_reg with
  | none => (Except.error Err.BurstReadNotPermitted, b)
  | some start_index =>
    let bytes0 : List Nat := (start_reg.addr <<< 3 ||| spiOpRead) :: List.replicate 14 0
    let sent := bytes0.take (len + 1)
    let b1 := b.csLow e.cs
    let r := b1.doXfer e.cs sent
    let b2 := r.2.csHigh e.cs
    let bytes1 := r.1 ++ List.replicate (15 - (len + 1)) 0
    let bytes2 := overwriteAt bytes1 start_index ((bytes1.drop 1).take len)
    let bytes3 := overwriteAt bytes2 1 (List.replicate (start_index - 1) 0)
    (Except.ok bytes3, b2)

/-- `get_cnt_snapshot`: burst read from Iwv with `len = 9`, decode the counter. -/
def Engine.get_cnt_snapshot (e : Engine) (b : Bus) : Except Err Nat × Bus :=
  andThen (e.burst_read Register.Iwv 9 b) fun frame b1 =>
    (Except.ok (BurstRead.ofFrame frame).cnt_snapshot, b1)

/-- Raw (unconverted) measurement triple. -/
structure RawMeasurement where
  iwv : Int
  v1wv : Int
  v2wv : Int
deriving DecidableEq

/-- `get_raw_measurement`: burst read from Iwv with `len = 9`, decode samples. -/
def Engine.get_raw_measurement (e : Engine) (b : Bus) : Except Err RawMeasurement × Bus :=
  andThen (e.burst_read Register.Iwv 9 b) fun frame b1 =>
    (Except.ok
      { iwv := (BurstRead.ofFrame frame).iwv
        v1wv := (BurstRead.ofFrame frame).v1wv
        v2wv := (BurstRead.ofFrame frame).v2wv }, b1)

/-- `is_dr_source`: the device drives DREADY iff CLKOUT is not enabled. -/
def Engine.is_dr_source (e : Engine) : Bool := !e.config.clkout_en

/-- One iteration bound of the reset poll plus the recursive rest: poll
Status0, succeed when `reset_on` is clear, else delay 100 ms and retry. -/
def Engine.waitResetLoop (e : Engine) : Nat → Bus → Except Err Unit × Bus
  | 0, b => (Except.error Err.ResetTimeout, b)
  | n + 1, b =>
    match e.read_reg Register.Status0 b with
    | (Except.error er, b1) => (Except.error er, b1)
    | (Except.ok recv, b1) =>
      if (Status0.fromByte (recv.getD 1 0)).reset_on = false then (Except.ok (), b1)
      else e.waitResetLoop n (b1.delay 100)

/-- `wait_reset`: up to 5 poll attempts. -/
def Engine.wait_reset (e : Engine) (b : Bus) : Except Err Unit × Bus :=
  e.waitResetLoop 5 b

/-- Counter modulus constant keyed by the cached ADC frequency. -/
def c0Of : AdcFreqVal → Nat
  | AdcFreqVal.KHz8 => 511
  | AdcFreqVal.KHz4 => 1023
  | AdcFreqVal.KHz2 => 2047
  | AdcFreqVal.KHz1 => 4095

/-- `adjust_sync`: read the counter snapshot, compute the signed 16-bit drift
from `cref`, and when the drift magnitude exceeds 1 preload the counter via
Counter0 (low byte) and Counter1 (high byte). -/
def Engine.adjust_sync (e : Engine) (cref : Nat) (b : Bus) : Except Err Int × Bus :=
  let c0 := c0Of e.config.adc_freq
  andThen (e.get_cnt_snapshot b) fun c b1 =>
    let drift := wrapI16 (toI16 c - toI16 cref)
    if drift > 1 ∨ drift < -1 then
      let adj := if c > cref then u16sub (u16 (cref + c0)) c else u16sub cref c
      andThen (e.write_reg Register.Counter0 (adj % 256) b1) fun _ b2 =>
        andThen (e.write_reg Register.Counter1 (adj / 256) b2) fun _ b3 =>
          (Except.ok drift, b3)
    else (Except.ok drift, b1)

/-- `sync`: write SyncSnap with the sync bit. -/
def Engine.sync (e : Engine) (b : Bus) : Except Err Unit × Bus :=
  e.write_reg Register.SyncSnap 1 b

/-- `snap`: write SyncSnap with the snap bit. -/
def Engine.snap (e : Engine) (b : Bus) : Except Err Unit × Bus :=
  e.write_reg Register.SyncSnap 2 b

/-- `lock`: write the lock-enable key. -/
def Engine.lock (e : Engine) (b : Bus) : Except Err Unit × Bus :=
  e.write_reg Register.Lock lockOpEnable b

/-- `unlock`: write the lock-disable key. -/
def Engine.unlock (e : Engine) (b : Bus) : Except Err Unit × Bus :=
  e.write_reg Register.Lock lockOpDisable b

/-- `broadcast_listen`: pull the chip select low (no SPI byte). -/
def Engine.broadcast_listen (e : Engine) (b : Bus) : Bus := b.csLow e.cs

/-- `broadcast_end`: raise the chip select (no SPI byte). -/
def Engine.broadcast_end (e : Engine) (b : Bus) : Bus := b.csHigh e.cs

/-- `init`: persist config and calibration, wait out the reset, write Config
and EmiCtrl checked, then materialize the aux calibration defaults. -/
def Engine.init (e : Engine) (cfg : Config) (cal : Calibration) (emi : Nat) (b : Bus) :
    Except Err Engine × Bus :=
  let e1 : Engine := { e with config := cfg, calibration := cal }
  andThen (e1.wait_reset b) fun _ b1 =>
  andThen (e1.write_reg_checked Register.Config cfg.toByte b1) fun _ b2 =>
  andThen (e1.write_reg_checked Register.EmiCtrl emi b2) fun _ b3 =>
  andThen
    (if e1.calibration.offset.aux = none then
      if e1.config.temp_en || e1.chip == Chip.ADE7912 then
        andThen (e1.read_reg Register.Tempos b3) fun recv b4 =>
          (Except.ok (some (FV.ofI8 (toI8 (recv.getD 1 0)))), b4)
      else (Except.ok (some FV.zero), b3)
    else (Except.ok e1.calibration.offset.aux, b3)) fun auxOff b4 =>
  let auxGain : Option FV :=
    if e1.calibration.gain.aux = none then
      if e1.config.temp_en || e1.chip == Chip.ADE7912 then
        if e1.config.bw then some FV.c821015em5 else some FV.c872101em5
      else some FV.one
    else e1.calibration.gain.aux
  (Except.ok
    { e1 with
      calibration :=
        { e1.calibration with
          offset := { e1.calibration.offset with aux := auxOff }
          gain := { e1.calibration.gain with aux := auxGain } } }, b4)

/-- Polyphase coordinator state (`poly::Ade791x`): the engines; the bus is
threaded explicitly. -/
structure Poly where
  adcs : List Engine

/-- Pull all chip selects of a group of engines low, in order. -/
def listenAll (l : List Engine) (b : Bus) : Bus :=
  l.foldl (fun b2 e => e.broadcast_listen b2) b

/-- Raise all chip selects of a group of engines, in order. -/
def endAll (l : List Engine) (b : Bus) : Bus :=
  l.foldl (fun b2 e => e.broadcast_end b2) b

/-- Broadcast pattern: non-primary chip selects low, one primary write, then
the chip selects are raised; indexing the empty array panics in the source. -/
def Poly.broadcast (p : Poly) (f : Engine → Bus → Except Err Unit × Bus) (b : Bus) :
    Except Err Unit × Bus :=
  match p.adcs with
  | [] => (Except.error Err.Panic, b)
  | a0 :: rest =>
    andThen (f a0 (listenAll rest b)) fun _ b2 => (Except.ok (), endAll rest b2)

/-- Broadcast a sync command. -/
def Poly.sync (p : Poly) (b : Bus) : Except Err Unit × Bus :=
  p.broadcast (fun a => a.sync) b

/-- Broadcast a snap command. -/
def Poly.snap (p : Poly) (b : Bus) : Except Err Unit × Bus :=
  p.broadcast (fun a => a.snap) b

/-- Broadcast a lock command. -/
def Poly.lock (p : Poly) (b : Bus) : Except Err Unit × Bus :=
  p.broadcast (fun a => a.lock) b

/-- Broadcast an unlock command. -/
def Poly.unlock (p : Poly) (b : Bus) : Except Err Unit × Bus :=
  p.broadcast (fun a => a.unlock) b

/-- Per-device init loop of the coordinator: each engine with its own
configuration, calibration and EMI settings; first error aborts. -/
def Poly.initLoop : List Engine → List Config → List Calibration → List Nat → Bus →
    Except Err (List Engine) × Bus
  | [], _, _, _, b => (Except.ok [], b)
  | e :: es, cfgs, cals, emis, b =>
    andThen (e.init (cfgs.headD Config.default) (cals.headD Calibration.default)
        (emis.headD 0xFF) b) fun e1 b1 =>
      andThen (Poly.initLoop es cfgs.tail cals.tail emis.tail b1) fun es1 b2 =>
        (Except.ok (e1 :: es1), b2)

/-- Coordinator `init`: per-device init, then (for more than one device) a
broadcast sync, then a broadcast lock. -/
def Poly.init (p : Poly) (cfgs : List Config) (cals : List Calibration) (emis : List Nat)
    (b : Bus) : Except Err Poly × Bus :=
  andThen (Poly.initLoop p.adcs cfgs cals emis b) fun es b1 =>
    let p1 : Poly := ⟨es⟩
    andThen (if es.length > 1 then p1.sync b1 else (Except.ok (), b1)) fun _ b2 =>
      andThen (p1.lock b2) fun _ b3 => (Except.ok p1, b3)

/-- Index of the first engine generating DREADY (`Iterator::position`). -/
def firstDr : List Engine → Option Nat
  | [] => none
  | e :: rest => if e.is_dr_source then some 0 else (firstDr rest).map (· + 1)

/-- Reference device index: first DREADY source, or 0 (`unwrap_or(0)`). -/
def refIndex (l : List Engine) : Nat := (firstDr l).getD 0

/-- Drift-collection loop of the coordinator's `adjust_sync`: the entry at the
reference index stays 0 and every other engine runs its own `adjust_sync`. -/
def Poly.adjustLoop (cref ref : Nat) : List Engine → Nat → Bus → Except Err (List Int) × Bus
  | [], _, b => (Except.ok [], b)
  | e :: rest, i, b =>
    if i = ref then
      andThen (Poly.adjustLoop cref ref rest (i + 1) b) fun ds b1 => (Except.ok (0 :: ds), b1)
    else
      andThen (e.adjust_sync cref b) fun d b1 =>
        andThen (Poly.adjustLoop cref ref rest (i + 1) b1) fun ds b2 =>
          (Except.ok (d :: ds), b2)

/-- Coordinator `adjust_sync`: unlock, broadcast snap, read the reference
counter, adjust every non-reference device, lock; returns the drift array. -/
def Poly.adjust_sync (p : Poly) (b : Bus) : Except Err (List Int) × Bus :=
  andThen (p.unlock b) fun _ b1 =>
  andThen (p.snap b1) fun _ b2 =>
  andThen ((p.adcs.getD (refIndex p.adcs) default).get_cnt_snapshot b2) fun cref b3 =>
  andThen (Poly.adjustLoop cref (refIndex p.adcs) p.adcs 0 b3) fun ds b4 =>
  andThen (p.lock b4) fun _ b5 => (Except.ok ds, b5)

/-! ### Trace observations -/

/-- The command/payload pair of a two-byte register-write style transfer. -/
def cmdOf : Ev → Option (Nat × Nat)
  | Ev.xfer _ (c :: p :: rest) _ => if rest = [] then some (c, p) else none
  | _ => none

/-- The Counter0/Counter1 writes appearing in a log, in order. -/
def counterWrites (l : List Ev) : List (Nat × Nat) :=
  l.filterMap fun ev =>
    match cmdOf ev with
    | some (c, p) => if c = 0x60 ∨ c = 0x68 then some (c, p) else none
    | none => none

/-- Whether an event is a 10-byte wire transfer (a `len = 9` burst read). -/
def isBurstXfer : Ev → Bool
  | Ev.xfer _ s _ => s.length == 10
  | _ => false

/-- Number of 10-byte wire transfers in a log. -/
def burstCount (l : List Ev) : Nat := l.countP isBurstXfer

/-- Whether an event is a transfer whose command byte is the Config write 0x40. -/
def isCfgWrite : Ev → Bool
  | Ev.xfer _ s _ => s.getD 0 0 == 0x40
  | _ => false

/-- Whether an event is a delay. -/
def isDelay : Ev → Bool
  | Ev.delayMs _ => true
  | _ => false

/-- Total milliseconds slept in a log. -/
def delaysTotal : List Ev → Nat
  | [] => 0
  | Ev.delayMs n :: rest => n + delaysTotal rest
  | _ :: rest => delaysTotal rest

theorem counterWrites_append (a b : List Ev) :
    counterWrites (a ++ b) = counterWrites a ++ counterWrites b := by
  simp [counterWrites]

theorem burstCount_append (a b : List Ev) :
    burstCount (a ++ b) = burstCount a + burstCount b := by
  simp [burstCount, List.countP_append]

theorem delaysTotal_append (a b : List Ev) :
    delaysTotal (a ++ b) = delaysTotal a + delaysTotal b := by
  induction a with
  | nil => simp [delaysTotal]
  | cons ev rest ih =>
    cases ev <;> simp [delaysTotal, ih, Nat.add_assoc]

/-! ### Elementary run lemmas -/

theorem recvBytes_length (o : Nat → Nat → Nat) (k n : Nat) :
    (recvBytes o k n).length = n := by
  simp [recvBytes]

theorem recvBytes_two (o : Nat → Nat → Nat) (k : Nat) :
    recvBytes o k 2 = [o k 0 % 256, o k 1 % 256] := by
  simp [recvBytes, List.range_succ]

/-- Successful `read_reg` run: the full transaction and its wire events. -/
theorem read_reg_run (e : Engine) (reg : Register) (h : reg.is_write_only = false)
    (o : Nat → Nat → Nat) (k : Nat) (log : List Ev) :
    e.read_reg reg ⟨o, k, log⟩ =
      (Except.ok (recvBytes o k 2),
       ⟨o, k + 1,
        log ++ [Ev.csLow e.cs,
                Ev.xfer e.cs [reg.addr <<< 3 ||| spiOpRead, 0] (recvBytes o k 2),
                Ev.csHigh e.cs]⟩) := by
  simp [Engine.read_reg, h, Bus.doXfer, Bus.csLow, Bus.csHigh]

/-- Successful `write_reg` run: the full transaction and its wire events. -/
theorem write_reg_run (e : Engine) (reg : Register) (content : Nat)
    (h : reg.is_read_only = false) (o : Nat → Nat → Nat) (k : Nat) (log : List Ev) :
    e.write_reg reg content ⟨o, k, log⟩ =
      (Except.ok (),
       ⟨o, k + 1,
        log ++ [Ev.csLow e.cs,
                Ev.xfer e.cs [reg.addr <<< 3 ||| spiOpWrite, content] (recvBytes o k 2),
                Ev.csHigh e.cs]⟩) := by
  simp [Engine.write_reg, h, Bus.doXfer, Bus.csLow, Bus.csHigh]

theorem recvBytes_ten (o : Nat → Nat → Nat) (k : Nat) :
    recvBytes o k 10 = [o k 0 % 256, o k 1 % 256, o k 2 % 256, o k 3 % 256, o k 4 % 256,
      o k 5 % 256, o k 6 % 256, o k 7 % 256, o k 8 % 256, o k 9 % 256] := by
  simp [recvBytes, List.range_succ]

/-- The wire bytes clocked out by a `len = 9` burst read starting at Iwv. -/
def burstSent : List Nat := [4, 0, 0, 0, 0, 0, 0, 0, 0, 0]

/-- The events of a `len = 9` burst read starting at Iwv. -/
def burstEvs (cs : Nat) (o : Nat → Nat → Nat) (k : Nat) : List Ev :=
  [Ev.csLow cs, Ev.xfer cs burstSent (recvBytes o k 10), Ev.csHigh cs]

/-- A `get_cnt_snapshot` run always returns 0: the 10-byte transfer never
reaches the counter bytes at frame offsets 13 and 14, which stay zero. -/
theorem get_cnt_snapshot_run (e : Engine) (o : Nat → Nat → Nat) (k : Nat) (log : List Ev) :
    e.get_cnt_snapshot ⟨o, k, log⟩ =
      (Except.ok 0, ⟨o, k + 1, log ++ burstEvs e.cs o k⟩) := by
  simp [Engine.get_cnt_snapshot, Engine.burst_read, burstStartIndex, Bus.doXfer,
    Bus.csLow, Bus.csHigh, overwriteAt, recvBytes_ten, BurstRead.ofFrame, byte,
    burstEvs, burstSent, Register.addr, spiOpRead, andThen_ok]

theorem u16sub_zero (cref : Nat) (h : cref < 65536) : u16sub cref 0 = cref := by
  simp [u16sub, u16, Nat.mod_eq_of_lt h]

/-- A single-device `adjust_sync` run: the obtained snapshot is always 0, the
returned drift is the wrapped signed difference, and the Counter0/Counter1
writes happen exactly when the drift magnitude exceeds 1. -/
theorem adjust_sync_run (e : Engine) (cref : Nat) (h : cref < 65536)
    (o : Nat → Nat → Nat) (k : Nat) (log : List Ev) :
    e.adjust_sync cref ⟨o, k, log⟩ =
      (if wrapI16 (toI16 0 - toI16 cref) > 1 ∨ wrapI16 (toI16 0 - toI16 cref) < -1 then
        (Except.ok (wrapI16 (toI16 0 - toI16 cref)),
         ⟨o, k + 3,
          log ++ burstEvs e.cs o k ++
            [Ev.csLow e.cs, Ev.xfer e.cs [0x60, cref % 256] (recvBytes o (k + 1) 2),
             Ev.csHigh e.cs,
             Ev.csLow e.cs, Ev.xfer e.cs [0x68, cref / 256] (recvBytes o (k + 2) 2),
             Ev.csHigh e.cs]⟩)
      else
        (Except.ok (wrapI16 (toI16 0 - toI16 cref)), ⟨o, k + 1, log ++ burstEvs e.cs o k⟩)) := by
  have h0 : (Register.Counter0).is_read_only = false := by decide
  have h1 : (Register.Counter1).is_read_only = false := by decide
  simp only [Engine.adjust_sync, get_cnt_snapshot_run, andThen_ok]
  split
  · simp [write_reg_run, h0, h1, u16sub_zero cref h, Register.addr, spiOpWrite,
      List.append_assoc, andThen_ok]
  · rfl

theorem adjust_sync_zero_run (e : Engine) (o : Nat → Nat → Nat) (k : Nat) (log : List Ev) :
    e.adjust_sync 0 ⟨o, k, log⟩ = (Except.ok 0, ⟨o, k + 1, log ++ burstEvs e.cs o k⟩) := by
  have h := adjust_sync_run e 0 (by norm_num) o k log
  simpa [toI16, wrapI16] using h

/-- The events of one Status0 poll at transfer index `k`. -/
def pollEvAt (cs : Nat) (o : Nat → Nat → Nat) (k : Nat) : List Ev :=
  [Ev.csLow cs, Ev.xfer cs [0x4C, 0] (recvBytes o k 2), Ev.csHigh cs]

/-- The events of `n` failed Status0 polls starting at transfer index `k`,
each followed by a 100 ms delay. -/
def failPollsFrom (cs : Nat) (o : Nat → Nat → Nat) : Nat → Nat → List Ev
  | _, 0 => []
  | k, n + 1 => pollEvAt cs o k ++ (Ev.delayMs 100 :: failPollsFrom cs o (k + 1) n)

theorem status_reset_on (x : Nat) : (Status0.fromByte x).reset_on = decide (x % 2 = 1) := by
  rcases Nat.mod_two_eq_zero_or_one x with h | h <;>
    simp [Status0.fromByte, Nat.and_one_is_mod, h]

theorem mod256_mod2 (x : Nat) : x % 256 % 2 = x % 2 :=
  Nat.mod_mod_of_dvd x (by norm_num)

theorem waitResetLoop_timeout (e : Engine) (o : Nat → Nat → Nat) :
    ∀ n k log, (∀ i, i < n → o (k + i) 1 % 2 = 1) →
      e.waitResetLoop n ⟨o, k, log⟩ =
        (Except.error Err.ResetTimeout, ⟨o, k + n, log ++ failPollsFrom e.cs o k n⟩) := by
  intro n
  induction n with
  | zero => intro k log _; simp [Engine.waitResetLoop, failPollsFrom]
  | succ n ih =>
    intro k log hall
    have hws : (Register.Status0).is_write_only = false := by decide
    have hbit : o k 1 % 2 = 1 := by simpa using hall 0 (by omega)
    have hrec : ∀ i, i < n → o (k + 1 + i) 1 % 2 = 1 := by
      intro i hi
      have h2 := hall (i + 1) (by omega)
      simpa [Nat.add_assoc, Nat.add_comm 1 i] using h2
    simp only [Engine.waitResetLoop, read_reg_run e Register.Status0 hws, recvBytes_two,
      List.getD_cons_succ, List.getD_cons_zero, status_reset_on, mod256_mod2, hbit,
      Bus.delay]
    rw [if_neg (by simp)]
    rw [ih (k + 1) _ hrec]
    rw [show k + (n + 1) = k + 1 + n from by omega]
    simp [failPollsFrom, pollEvAt, Register.addr, spiOpRead, recvBytes_two,
      List.append_assoc]

theorem waitResetLoop_success (e : Engine) (o : Nat → Nat → Nat) :
    ∀ n j k log, j < n → (∀ i, i < j → o (k + i) 1 % 2 = 1) → o (k + j) 1 % 2 = 0 →
      e.waitResetLoop n ⟨o, k, log⟩ =
        (Except.ok (),
         ⟨o, k + j + 1, log ++ failPollsFrom e.cs o k j ++ pollEvAt e.cs o (k + j)⟩) := by
  intro n
  induction n with
  | zero => intro j k log hj _ _; omega
  | succ n ih =>
    intro j k log hj hset hclear
    have hws : (Register.Status0).is_write_only = false := by decide
    cases j with
    | zero =>
      have hbit : o k 1 % 2 = 0 := by simpa using hclear
      simp only [Engine.waitResetLoop, read_reg_run e Register.Status0 hws, recvBytes_two,
        List.getD_cons_succ, List.getD_cons_zero, status_reset_on, mod256_mod2, hbit]
      rw [if_pos (by simp)]
      simp [failPollsFrom, pollEvAt, Register.addr, spiOpRead, recvBytes_two]
    | succ j =>
      have hbit : o k 1 % 2 = 1 := by simpa using hset 0 (by omega)
      have hset2 : ∀ i, i < j → o (k + 1 + i) 1 % 2 = 1 := by
        intro i hi
        have h2 := hset (i + 1) (by omega)
        simpa [Nat.add_assoc, Nat.add_comm 1 i] using h2
      have hclear2 : o (k + 1 + j) 1 % 2 = 0 := by
        have h2 := hclear
        simpa [Nat.add_assoc, Nat.add_comm 1 j] using h2
      simp only [Engine.waitResetLoop, read_reg_run e Register.Status0 hws, recvBytes_two,
        List.getD_cons_succ, List.getD_cons_zero, status_reset_on, mod256_mod2, hbit,
        Bus.delay]
      rw [if_neg (by simp)]
      rw [ih j (k + 1) _ (by omega) hset2 hclear2]
      rw [show k + (j + 1) = k + 1 + j from by omega]
      simp [failPollsFrom, pollEvAt, Register.addr, spiOpRead, recvBytes_two,
        List.append_assoc]

theorem toI32_congr (a b : Nat) (h : a % 4294967296 = b % 4294967296) : toI32 a = toI32 b := by
  unfold toI32
  rw [h]

theorem shift_signext (p : Nat) : i32sar8 (i32shl8 (toI32 p)) = signExt24 p := by
  have hpat : patOf (toI32 p) = p % 4294967296 := by
    unfold patOf toI32
    split <;> omega
  have hcongr : toI32 (patOf (toI32 p) * 256) = toI32 ((p % 16777216) * 256) :=
    toI32_congr _ _ (by rw [hpat]; omega)
  rw [i32shl8, hcongr]
  unfold i32sar8 toI32 signExt24
  have h24 : p % 16777216 < 16777216 := Nat.mod_lt _ (by norm_num)
  have hsm : (p % 16777216 * 256) % 4294967296 = p % 16777216 * 256 :=
    Nat.mod_eq_of_lt (by omega)
  rw [hsm]
  by_cases hcase : p % 16777216 < 8388608
  · rw [if_pos (by omega), if_pos (by omega)]
    rw [show ((p % 16777216 * 256 : Nat) : Int) = ((p % 16777216 : Nat) : Int) * 256 by
      push_cast; ring]
    exact Int.mul_fdiv_cancel _ (by norm_num)
  · rw [if_neg (by omega), if_neg (by omega)]
    rw [show ((p % 16777216 * 256 : Nat) : Int) - 4294967296 =
        (((p % 16777216 : Nat) : Int) - 16777216) * 256 by push_cast; ring]
    rw [Int.mul_fdiv_cancel _ (by norm_num)]

theorem listenAll_run (l : List Engine) (o : Nat → Nat → Nat) (k : Nat) :
    ∀ log, listenAll l ⟨o, k, log⟩ = ⟨o, k, log ++ l.map fun e => Ev.csLow e.cs⟩ := by
  induction l with
  | nil => intro log; simp [listenAll]
  | cons e rest ih =>
    intro log
    simp only [listenAll, List.foldl_cons] at ih ⊢
    rw [show (Engine.broadcast_listen e ⟨o, k, log⟩) = ⟨o, k, log ++ [Ev.csLow e.cs]⟩ from rfl]
    rw [ih]
    simp

theorem endAll_run (l : List Engine) (o : Nat → Nat → Nat) (k : Nat) :
    ∀ log, endAll l ⟨o, k, log⟩ = ⟨o, k, log ++ l.map fun e => Ev.csHigh e.cs⟩ := by
  induction l with
  | nil => intro log; simp [endAll]
  | cons e rest ih =>
    intro log
    simp only [endAll, List.foldl_cons] at ih ⊢
    rw [show (Engine.broadcast_end e ⟨o, k, log⟩) = ⟨o, k, log ++ [Ev.csHigh e.cs]⟩ from rfl]
    rw [ih]
    simp

/-- Events of one broadcast register write: non-primary chip selects low, the
primary two-byte write, then all chip selects raised. -/
def bcastEvs (rest : List Engine) (a0 : Engine) (cmd pl : Nat) (rcv : List Nat) : List Ev :=
  (rest.map fun e => Ev.csLow e.cs) ++
    [Ev.csLow a0.cs, Ev.xfer a0.cs [cmd, pl] rcv, Ev.csHigh a0.cs] ++
    (rest.map fun e => Ev.csHigh e.cs)

theorem broadcast_write_run (a0 : Engine) (rest : List Engine) (reg : Register)
    (content : Nat) (h : reg.is_read_only = false) (o : Nat → Nat → Nat) (k : Nat)
    (log : List Ev) :
    Poly.broadcast ⟨a0 :: rest⟩ (fun a => a.write_reg reg content) ⟨o, k, log⟩ =
      (Except.ok (),
       ⟨o, k + 1,
        log ++ bcastEvs rest a0 (reg.addr <<< 3 ||| spiOpWrite) content (recvBytes o k 2)⟩) := by
  simp only [Poly.broadcast]
  rw [listenAll_run]
  rw [write_reg_run a0 reg content h]
  simp [endAll_run, bcastEvs, List.append_assoc, andThen_ok]

theorem counterWrites_map_csLow (l : List Engine) :
    counterWrites (l.map fun e => Ev.csLow e.cs) = [] := by
  induction l with
  | nil => simp [counterWrites]
  | cons e rest ih => simp [counterWrites, cmdOf, ih]

theorem counterWrites_map_csHigh (l : List Engine) :
    counterWrites (l.map fun e => Ev.csHigh e.cs) = [] := by
  induction l with
  | nil => simp [counterWrites]
  | cons e rest ih => simp [counterWrites, cmdOf, ih]

theorem burstCount_map_csLow (l : List Engine) :
    burstCount (l.map fun e => Ev.csLow e.cs) = 0 := by
  induction l with
  | nil => simp [burstCount]
  | cons e rest ih => simp [burstCount, isBurstXfer, ih]

theorem burstCount_map_csHigh (l : List Engine) :
    burstCount (l.map fun e => Ev.csHigh e.cs) = 0 := by
  induction l with
  | nil => simp [burstCount]
  | cons e rest ih => simp [burstCount, isBurstXfer, ih]

theorem counterWrites_bcast (rest : List Engine) (a0 : Engine) (cmd pl : Nat)
    (rcv : List Nat) (h : ¬(cmd = 0x60 ∨ cmd = 0x68)) :
    counterWrites (bcastEvs rest a0 cmd pl rcv) = [] := by
  simp [bcastEvs, counterWrites_append, counterWrites_map_csLow, counterWrites_map_csHigh,
    counterWrites, cmdOf, h]

theorem burstCount_bcast (rest : List Engine) (a0 : Engine) (cmd pl : Nat) (rcv : List Nat) :
    burstCount (bcastEvs rest a0 cmd pl rcv) = 0 := by
  simp [bcastEvs, burstCount_append, burstCount_map_csLow, burstCount_map_csHigh,
    burstCount, isBurstXfer]

theorem counterWrites_burstEvs (cs : Nat) (o : Nat → Nat → Nat) (k : Nat) :
    counterWrites (burstEvs cs o k) = [] := by
  simp [burstEvs, counterWrites, cmdOf, burstSent]

theorem burstCount_burstEvs (cs : Nat) (o : Nat → Nat → Nat) (k : Nat) :
    burstCount (burstEvs cs o k) = 1 := by
  simp [burstEvs, burstCount, isBurstXfer, burstSent, recvBytes_length]

theorem adjustLoop_nil (cref ref i : Nat) (b : Bus) :
    Poly.adjustLoop cref ref [] i b = (Except.ok [], b) := rfl

theorem adjustLoop_cons (cref ref : Nat) (e : Engine) (rest : List Engine) (i : Nat)
    (b : Bus) :
    Poly.adjustLoop cref ref (e :: rest) i b =
      if i = ref then
        andThen (Poly.adjustLoop cref ref rest (i + 1) b) fun ds b1 => (Except.ok (0 :: ds), b1)
      else
        andThen (e.adjust_sync cref b) fun d b1 =>
          andThen (Poly.adjustLoop cref ref rest (i + 1) b1) fun ds b2 =>
            (Except.ok (d :: ds), b2) := rfl

/-- Number of indices in `[i, i + n)` different from `ref`. -/
def nonRefCount (ref : Nat) : Nat → Nat → Nat
  | _, 0 => 0
  | i, n + 1 => (if i = ref then 0 else 1) + nonRefCount ref (i + 1) n

theorem nonRefCount_eval (ref : Nat) :
    ∀ n i, nonRefCount ref i n = if i ≤ ref ∧ ref < i + n then n - 1 else n := by
  intro n
  induction n with
  | zero => intro i; simp [nonRefCount]
  | succ n ih =>
    intro i
    rw [nonRefCount, ih (i + 1)]
    split_ifs <;> omega

/-- The drift loop with `cref = 0` over any engine group: every drift is 0,
every non-reference engine contributes exactly one burst read and writes
no counter register. -/
theorem adjustLoop_zero (ref : Nat) :
    ∀ (l : List Engine) (i : Nat) (o : Nat → Nat → Nat) (k : Nat) (log : List Ev),
      ∃ Δ, Poly.adjustLoop 0 ref l i ⟨o, k, log⟩ =
          (Except.ok (List.replicate l.length 0),
           ⟨o, k + nonRefCount ref i l.length, log ++ Δ⟩) ∧
        counterWrites Δ = [] ∧ burstCount Δ = nonRefCount ref i l.length := by
  intro l
  induction l with
  | nil =>
    intro i o k log
    refine ⟨[], ?_, by simp [counterWrites], by simp [burstCount, nonRefCount]⟩
    rw [adjustLoop_nil]
    simp [nonRefCount]
  | cons e rest ih =>
    intro i o k log
    by_cases h : i = ref
    · obtain ⟨Δ, hrun, hcw, hbc⟩ := ih (i + 1) o k log
      refine ⟨Δ, ?_, hcw, ?_⟩
      · rw [adjustLoop_cons, if_pos h, hrun, andThen_ok]
        simp [List.replicate_succ, nonRefCount, if_pos h]
      · simp [nonRefCount, if_pos h, hbc]
    · obtain ⟨Δ, hrun, hcw, hbc⟩ := ih (i + 1) o (k + 1) (log ++ burstEvs e.cs o k)
      refine ⟨burstEvs e.cs o k ++ Δ, ?_, ?_, ?_⟩
      · rw [adjustLoop_cons, if_neg h, adjust_sync_zero_run, andThen_ok, hrun, andThen_ok]
        simp [List.replicate_succ, nonRefCount, if_neg h, List.append_assoc, Nat.add_assoc]
      · simp [counterWrites_append, counterWrites_burstEvs, hcw]
      · simp [burstCount_append, burstCount_burstEvs, hbc, nonRefCount, if_neg h]

theorem firstDr_none (l : List Engine) (h : ∀ e ∈ l, e.is_dr_source = false) :
    firstDr l = none := by
  induction l with
  | nil => rfl
  | cons e rest ih =>
    have he := h e (by simp)
    simp only [firstDr, he, Bool.false_eq_true, if_false]
    rw [ih fun x hx => h x (by simp [hx])]
    rfl

theorem firstDr_some_lt (l : List Engine) :
    ∀ i, firstDr l = some i → i < l.length ∧ (l.getD i default).is_dr_source = true := by
  induction l with
  | nil => intro i h; simp [firstDr] at h
  | cons e rest ih =>
    intro i h
    by_cases he : e.is_dr_source
    · simp only [firstDr, he, if_true] at h
      cases h
      simpa using he
    · simp only [firstDr, he, Bool.false_eq_true, if_false, Option.map_eq_some'] at h
      obtain ⟨j, hj, rfl⟩ := h
      obtain ⟨h1, h2⟩ := ih j hj
      constructor
      · simpa using h1
      · simpa using h2

theorem firstDr_at (l : List Engine) :
    ∀ i, i < l.length → (l.getD i default).is_dr_source = true →
      (∀ j, j < i → (l.getD j default).is_dr_source = false) → firstDr l = some i := by
  induction l with
  | nil => intro i hi; simp at hi
  | cons e rest ih =>
    intro i hi hdr hmin
    cases i with
    | zero =>
      simp only [List.getD_cons_zero] at hdr
      simp [firstDr, hdr]
    | succ i =>
      have he : e.is_dr_source = false := by
        have := hmin 0 (by omega)
        simpa using this
      simp only [firstDr, he, Bool.false_eq_true, if_false]
      rw [ih i (by simpa using hi) (by simpa using hdr)
        (fun j hj => by simpa using hmin (j + 1) (by omega))]
      rfl

theorem refIndex_lt (l : List Engine) (h : l ≠ []) : refIndex l < l.length := by
  unfold refIndex
  cases hfd : firstDr l with
  | none =>
    simp only [Option.getD_none]
    cases l with
    | nil => exact absurd rfl h
    | cons e rest => simp
  | some i =>
    simp only [Option.getD_some]
    exact (firstDr_some_lt l i hfd).1

theorem burstCount_nil : burstCount [] = 0 := rfl

theorem counterWrites_nil : counterWrites [] = [] := rfl

theorem poly_unlock_run (a0 : Engine) (rest : List Engine) (o : Nat → Nat → Nat)
    (k : Nat) (log : List Ev) :
    Poly.unlock ⟨a0 :: rest⟩ ⟨o, k, log⟩ =
      (Except.ok (),
       ⟨o, k + 1, log ++ bcastEvs rest a0 0x50 lockOpDisable (recvBytes o k 2)⟩) :=
  broadcast_write_run a0 rest Register.Lock lockOpDisable (by decide) o k log

theorem poly_snap_run (a0 : Engine) (rest : List Engine) (o : Nat → Nat → Nat)
    (k : Nat) (log : List Ev) :
    Poly.snap ⟨a0 :: rest⟩ ⟨o, k, log⟩ =
      (Except.ok (), ⟨o, k + 1, log ++ bcastEvs rest a0 0x58 2 (recvBytes o k 2)⟩) :=
  broadcast_write_run a0 rest Register.SyncSnap 2 (by decide) o k log

theorem poly_lock_run (a0 : Engine) (rest : List Engine) (o : Nat → Nat → Nat)
    (k : Nat) (log : List Ev) :
    Poly.lock ⟨a0 :: rest⟩ ⟨o, k, log⟩ =
      (Except.ok (),
       ⟨o, k + 1, log ++ bcastEvs rest a0 0x50 lockOpEnable (recvBytes o k 2)⟩) :=
  broadcast_write_run a0 rest Register.Lock lockOpEnable (by decide) o k log

/-- A full coordinator `adjust_sync` run on any nonempty engine group: it
succeeds, every drift entry is 0, no Counter0/Counter1 write appears on the
wire, and exactly one burst read happens per device. -/
theorem poly_adjust_run (a0 : Engine) (rest : List Engine) (o : Nat → Nat → Nat) :
    ∃ kf Δ, Poly.adjust_sync ⟨a0 :: rest⟩ (mkBus o) =
        (Except.ok (List.replicate (a0 :: rest).length 0), ⟨o, kf, Δ⟩) ∧
      counterWrites Δ = [] ∧ burstCount Δ = (a0 :: rest).length := by
  have href : refIndex (a0 :: rest) < (a0 :: rest).length :=
    refIndex_lt _ (by simp)
  obtain ⟨Δl, hloop, hcw, hbc⟩ :=
    adjustLoop_zero (refIndex (a0 :: rest)) (a0 :: rest) 0 o 3
      ([] ++ bcastEvs rest a0 0x50 lockOpDisable (recvBytes o 0 2) ++
        bcastEvs rest a0 0x58 2 (recvBytes o 1 2) ++
        burstEvs ((a0 :: rest).getD (refIndex (a0 :: rest)) default).cs o 2)
  simp only [Poly.adjust_sync, mkBus]
  rw [poly_unlock_run, andThen_ok]
  rw [poly_snap_run, andThen_ok]
  rw [get_cnt_snapshot_run, andThen_ok]
  rw [hloop, andThen_ok]
  rw [poly_lock_run, andThen_ok]
  refine ⟨_, _, rfl, ?_, ?_⟩
  · simp [counterWrites_append, counterWrites_bcast, counterWrites_burstEvs, hcw,
      lockOpEnable, lockOpDisable]
  · simp only [burstCount_append, burstCount_bcast, burstCount_burstEvs, burstCount_nil, hbc,
      nonRefCount_eval]
    simp only [List.length_cons] at href ⊢
    split_ifs <;> omega

theorem delaysTotal_failPollsFrom (cs : Nat) (o : Nat → Nat → Nat) :
    ∀ n k, delaysTotal (failPollsFrom cs o k n) = n * 100 := by
  intro n
  induction n with
  | zero => intro k; rfl
  | succ n ih =>
    intro k
    simp only [failPollsFrom, delaysTotal_append, pollEvAt]
    rw [show delaysTotal (Ev.delayMs 100 :: failPollsFrom cs o (k + 1) n) =
        100 + delaysTotal (failPollsFrom cs o (k + 1) n) from rfl]
    rw [ih (k + 1)]
    simp [delaysTotal]
    ring

theorem delayCount_failPollsFrom (cs : Nat) (o : Nat → Nat → Nat) :
    ∀ n k, (failPollsFrom cs o k n).countP isDelay = n := by
  intro n
  induction n with
  | zero => intro k; rfl
  | succ n ih =>
    intro k
    simp only [failPollsFrom, List.countP_append, pollEvAt, List.countP_cons]
    rw [ih (k + 1)]
    simp [isDelay, List.countP_cons, List.countP_nil]

theorem cfgWrite_failPollsFrom (cs : Nat) (o : Nat → Nat → Nat) :
    ∀ n k, (failPollsFrom cs o k n).countP isCfgWrite = 0 := by
  intro n
  induction n with
  | zero => intro k; rfl
  | succ n ih =>
    intro k
    simp only [failPollsFrom, List.countP_append, pollEvAt, List.countP_cons]
    rw [ih (k + 1)]
    simp [isCfgWrite, List.countP_cons, List.countP_nil]

/-- `Engine.init` when every one of the 5 reset polls reads `reset_on = 1`:
the whole init fails with ResetTimeout right after the five polls. -/
theorem engine_init_timeout (e : Engine) (cfg : Config) (cal : Calibration) (emi : Nat)
    (o : Nat → Nat → Nat) (log : List Ev)
    (hset : ∀ i, i < 5 → o i 1 % 2 = 1) :
    e.init cfg cal emi ⟨o, 0, log⟩ =
      (Except.error Err.ResetTimeout, ⟨o, 5, log ++ failPollsFrom e.cs o 0 5⟩) := by
  simp only [Engine.init, Engine.wait_reset]
  rw [waitResetLoop_timeout _ o 5 0 log (by simpa using hset)]
  rfl

theorem initLoop_cons (e : Engine) (es : List Engine) (cfgs : List Config)
    (cals : List Calibration) (emis : List Nat) (b : Bus) :
    Poly.initLoop (e :: es) cfgs cals emis b =
      andThen (e.init (cfgs.headD Config.default) (cals.headD Calibration.default)
          (emis.headD 0xFF) b) fun e1 b1 =>
        andThen (Poly.initLoop es cfgs.tail cals.tail emis.tail b1) fun es1 b2 =>
          (Except.ok (e1 :: es1), b2) := rfl

/-- Coordinator `init` with the first device timing out on reset: the error
surfaces and the wire log is just the five failed polls of device 0. -/
theorem poly_init_timeout (a0 : Engine) (rest : List Engine) (cfg0 : Config)
    (cfgs : List Config) (cal0 : Calibration) (cals : List Calibration) (emi0 : Nat)
    (emis : List Nat) (o : Nat → Nat → Nat)
    (hset : ∀ i, i < 5 → o i 1 % 2 = 1) :
    Poly.init ⟨a0 :: rest⟩ (cfg0 :: cfgs) (cal0 :: cals) (emi0 :: emis) (mkBus o) =
      (Except.error Err.ResetTimeout, ⟨o, 5, failPollsFrom a0.cs o 0 5⟩) := by
  simp only [Poly.init, mkBus, initLoop_cons]
  rw [show (cfg0 :: cfgs).headD Config.default = cfg0 from rfl,
    show (cal0 :: cals).headD Calibration.default = cal0 from rfl,
    show (emi0 :: emis).headD 0xFF = emi0 from rfl]
  rw [engine_init_timeout a0 cfg0 cal0 emi0 o [] hset]
  rfl

theorem signExt24_congr (a b : Nat) (h : a % 16777216 = b % 16777216) :
    signExt24 a = signExt24 b := by
  unfold signExt24
  rw [h]

/-- Oracle replaying the concrete wire bytes of the specification's
burst-read scenario. -/
def c5oracle : Nat → Nat → Nat :=
  fun _ j => [0x04, 0x05, 0xEC, 0xDF, 0x06, 0x17, 0x1C, 0x37, 0xBE, 0x97].getD j 0

set_option maxRecDepth 4096 in
/-- C5: the burst-read decoder computes iwv, v1wv, v2wv from the 4-byte
big-endian windows at offsets 0..4, 3..7, 6..10, shifting left 8 then
arithmetic-right 8, i.e. sign-extending the 24-bit values held in bytes
1..3, 4..6, 7..9; on the concrete 10-byte wire frame
04 05 EC DF 06 17 1C 37 BE 97, `get_raw_measurement` returns
iwv = 388319, v1wv = 399132, v2wv = 3653271. -/
theorem C5_burst_decode :
    (∀ frame : List Nat,
      (BurstRead.ofFrame frame).iwv =
          signExt24 (byte frame 1 * 65536 + byte frame 2 * 256 + byte frame 3) ∧
      (BurstRead.ofFrame frame).v1wv =
          signExt24 (byte frame 4 * 65536 + byte frame 5 * 256 + byte frame 6) ∧
      (BurstRead.ofFrame frame).v2wv =
          signExt24 (byte frame 7 * 65536 + byte frame 8 * 256 + byte frame 9)) ∧
    (((default : Engine).get_raw_measurement (mkBus c5oracle)).1 =
        Except.ok { iwv := 388319, v1wv := 399132, v2wv := 3653271 }) := by
  constructor
  · intro frame
    have hb : ∀ i, byte frame i < 256 := fun i => Nat.mod_lt _ (by norm_num)
    refine ⟨?_, ?_, ?_⟩
    · rw [show (BurstRead.ofFrame frame).iwv =
          i32sar8 (i32shl8 (toI32 (be32 (byte frame 0) (byte frame 1) (byte frame 2)
            (byte frame 3)))) from rfl]
      rw [shift_signext]
      apply signExt24_congr
      have h1 := hb 1
      have h2 := hb 2
      have h3 := hb 3
      unfold be32
      omega
    · rw [show (BurstRead.ofFrame frame).v1wv =
          i32sar8 (i32shl8 (toI32 (be32 (byte frame 3) (byte frame 4) (byte frame 5)
            (byte frame 6)))) from rfl]
      rw [shift_signext]
      apply signExt24_congr
      have h1 := hb 4
      have h2 := hb 5
      have h3 := hb 6
      unfold be32
      omega
    · rw [show (BurstRead.ofFrame frame).v2wv =
          i32sar8 (i32shl8 (toI32 (be32 (byte frame 6) (byte frame 7) (byte frame 8)
            (byte frame 9)))) from rfl]
      rw [shift_signext]
      apply signExt24_congr
      have h1 := hb 7
      have h2 := hb 8
      have h3 := hb 9
      unfold be32
      omega
  · rfl

/-- C6 counterexample: the claim asserts that bits 1 and 5 of every encoded
Config byte are zero, but byte 0x20 (adc_freq = 2 kHz) decodes and re-encodes
to 0x20, whose bit 5 is set: adc_freq occupies bits 4:5, so bit 5 is a
defined bit, not an unused one. -/
theorem C6_counterexample :
    Config.toByte (Config.fromByte 0x20) = 0x20 ∧
      ¬(Config.toByte (Config.fromByte 0x20) &&& 0x20 = 0) := by
  decide

set_option maxRecDepth 8192 in
/-- C6 (amended): decoding a byte and re-encoding yields the byte with only
bit 1 cleared (all defined bits 0, 2, 3, 4, 5, 6, 7 are preserved); bit 1 of
the re-encoding is always zero; on bytes with bit 1 clear the round trip is
the identity; and every encoded Config value has bit 1 clear. -/
theorem C6_config_roundtrip :
    (∀ b : Fin 256, Config.toByte (Config.fromByte b.val) = b.val &&& 0xFD) ∧
    (∀ b : Fin 256, Config.toByte (Config.fromByte b.val) &&& 0x02 = 0) ∧
    (∀ b : Fin 256, b.val &&& 0x02 = 0 → Config.toByte (Config.fromByte b.val) = b.val) ∧
    (∀ c : Config, Config.toByte c &&& 0x02 = 0) := by
  refine ⟨by decide, by decide, by decide, ?_⟩
  rintro ⟨b1, b2, b3, f, b5, b6⟩
  cases b1 <;> cases b2 <;> cases b3 <;> cases f <;> cases b5 <;> cases b6 <;> rfl

/-- C6 witness: byte 0x08 has bit 1 clear and round-trips to itself. -/
theorem C6_witness :
    (0x08 : Fin 256).val &&& 0x02 = 0 ∧
      Config.toByte (Config.fromByte (0x08 : Fin 256).val) = (0x08 : Fin 256).val :=
  ⟨by decide, C6_config_roundtrip.2.2.1 (0x08 : Fin 256) (by decide)⟩

/-- C2: `get_cnt_snapshot` issues a single burst read starting at Iwv with
`len = 9`, a 10-byte wire transfer, so the counter bytes at canonical frame
offsets 13 and 14 are never populated and the returned snapshot is 0 for
every oracle, i.e. for every byte sequence the bus could return. -/
theorem C2_cnt_snapshot_always_zero (e : Engine) (o : Nat → Nat → Nat) :
    e.get_cnt_snapshot (mkBus o) = (Except.ok 0, ⟨o, 1, burstEvs e.cs o 0⟩) ∧
    burstSent.length = 10 ∧
    burstEvs e.cs o 0 =
      [Ev.csLow e.cs, Ev.xfer e.cs burstSent (recvBytes o 0 10), Ev.csHigh e.cs] :=
  ⟨get_cnt_snapshot_run e o 0 [], rfl, rfl⟩

/-- C1: a successful single-device `adjust_sync(spi, cref)` obtains counter
snapshot c = 0 and returns the signed 16-bit drift c − cref; the
Counter0/Counter1 writes happen exactly when drift > 1 or drift < −1, in
which case (c ≤ cref, so the `cref − c` arm is taken) the low byte of
adj = cref − c goes to Counter0 followed by the high byte to Counter1;
with |drift| ≤ 1 neither counter register is written. The modulus constant
c0 is 511, 1023, 2047, 4095 for 8, 4, 2, 1 kHz. -/
theorem C1_adjust_sync_formula (e : Engine) (o : Nat → Nat → Nat) (cref : Nat)
    (h : cref < 65536) :
    (c0Of AdcFreqVal.KHz8 = 511 ∧ c0Of AdcFreqVal.KHz4 = 1023 ∧
      c0Of AdcFreqVal.KHz2 = 2047 ∧ c0Of AdcFreqVal.KHz1 = 4095) ∧
    (e.adjust_sync cref (mkBus o)).1 = Except.ok (wrapI16 (toI16 0 - toI16 cref)) ∧
    counterWrites (e.adjust_sync cref (mkBus o)).2.log =
      (if wrapI16 (toI16 0 - toI16 cref) > 1 ∨ wrapI16 (toI16 0 - toI16 cref) < -1 then
        [(0x60, u16sub cref 0 % 256), (0x68, u16sub cref 0 / 256)]
      else []) := by
  have hrun := adjust_sync_run e cref h o 0 []
  refine ⟨⟨rfl, rfl, rfl, rfl⟩, ?_, ?_⟩
  · rw [show mkBus o = ⟨o, 0, []⟩ from rfl, hrun]
    split <;> rfl
  · rw [show mkBus o = ⟨o, 0, []⟩ from rfl, hrun]
    split
    · simp only [List.nil_append]
      rw [counterWrites_append, counterWrites_burstEvs]
      simp [counterWrites, cmdOf, u16sub_zero cref h]
    · simp only [List.nil_append]
      rw [counterWrites_burstEvs]

/-- C1 witness: with cref = 7 the drift is −7, so both counter writes occur. -/
theorem C1_witness :
    (7 : Nat) < 65536 ∧
    ((c0Of AdcFreqVal.KHz8 = 511 ∧ c0Of AdcFreqVal.KHz4 = 1023 ∧
      c0Of AdcFreqVal.KHz2 = 2047 ∧ c0Of AdcFreqVal.KHz1 = 4095) ∧
    ((default : Engine).adjust_sync 7 (mkBus (fun _ _ => 0))).1 =
        Except.ok (wrapI16 (toI16 0 - toI16 7)) ∧
    counterWrites ((default : Engine).adjust_sync 7 (mkBus (fun _ _ => 0))).2.log =
      (if wrapI16 (toI16 0 - toI16 7) > 1 ∨ wrapI16 (toI16 0 - toI16 7) < -1 then
        [(0x60, u16sub 7 0 % 256), (0x68, u16sub 7 0 / 256)]
      else [])) :=
  ⟨by norm_num, C1_adjust_sync_formula (default : Engine) (fun _ _ => 0) 7 (by norm_num)⟩

theorem getD_replicate0 : ∀ n i : Nat, i < n → (List.replicate n (0 : Int)).getD i 1 = 0 := by
  intro n
  induction n with
  | zero => intro i h; omega
  | succ n ih =>
    intro i h
    cases i with
    | zero => rfl
    | succ i =>
      rw [List.replicate_succ, List.getD_cons_succ]
      exact ih i (by omega)

/-- C3: a fully successful coordinator `adjust_sync` over any engine group
returns an all-zero drift array and never writes Counter0 or Counter1 on
the bus, because every counter snapshot read (cref included) yields 0. -/
theorem C3_adjust_sync_all_zero (engines : List Engine) (o : Nat → Nat → Nat)
    (h : engines ≠ []) :
    ∃ kf Δ, Poly.adjust_sync ⟨engines⟩ (mkBus o) =
        (Except.ok (List.replicate engines.length 0), ⟨o, kf, Δ⟩) ∧
      counterWrites Δ = [] := by
  match engines, h with
  | a0 :: rest, _ =>
    obtain ⟨kf, Δ, h1, h2, _⟩ := poly_adjust_run a0 rest o
    exact ⟨kf, Δ, h1, h2⟩

/-- C3 witness at a singleton engine group and the all-zero oracle. -/
theorem C3_witness :
    ([(default : Engine)] ≠ []) ∧
    ∃ kf Δ, Poly.adjust_sync ⟨[(default : Engine)]⟩ (mkBus (fun _ _ => 0)) =
        (Except.ok (List.replicate [(default : Engine)].length 0), ⟨(fun _ _ => 0), kf, Δ⟩) ∧
      counterWrites Δ = [] :=
  ⟨by simp, C3_adjust_sync_all_zero [(default : Engine)] (fun _ _ => 0) (by simp)⟩

/-- C4: the reference index of the coordinator's `adjust_sync` is the first
index whose cached configuration has clkout_en = false, or 0 when there is
none; the drift entry at the reference index is 0; the reference engine's own
`adjust_sync` never runs (exactly one burst read per device happens overall,
the cref read included); and no Counter0/Counter1 write is issued since every
recorded drift is 0, of magnitude at most 1. -/
theorem C4_reference_device (engines : List Engine) (o : Nat → Nat → Nat)
    (h : engines ≠ []) :
    (∀ i, i < engines.length → (engines.getD i default).config.clkout_en = false →
      (∀ j, j < i → (engines.getD j default).config.clkout_en = true) →
      refIndex engines = i) ∧
    ((∀ e ∈ engines, e.config.clkout_en = true) → refIndex engines = 0) ∧
    ∃ kf Δ ds, Poly.adjust_sync ⟨engines⟩ (mkBus o) = (Except.ok ds, ⟨o, kf, Δ⟩) ∧
      ds.getD (refIndex engines) 1 = 0 ∧
      counterWrites Δ = [] ∧
      burstCount Δ = engines.length := by
  refine ⟨?_, ?_, ?_⟩
  · intro i hi hdr hmin
    unfold refIndex
    rw [firstDr_at engines i hi
      (by simp only [Engine.is_dr_source]; simpa [List.getD] using congrArg Bool.not hdr)
      (fun j hj => by
        simp only [Engine.is_dr_source]
        simpa [List.getD] using congrArg Bool.not (hmin j hj))]
    rfl
  · intro hnone
    unfold refIndex
    rw [firstDr_none engines (fun x hx => by simp [Engine.is_dr_source, hnone x hx])]
    rfl
  · match engines, h with
    | a0 :: rest, _ =>
      obtain ⟨kf, Δ, h1, h2, h3⟩ := poly_adjust_run a0 rest o
      refine ⟨kf, Δ, _, h1, ?_, h2, h3⟩
      have href : refIndex (a0 :: rest) < (a0 :: rest).length := refIndex_lt _ (by simp)
      exact getD_replicate0 _ _ href

/-- C4 witness at a singleton engine group and the all-zero oracle. -/
theorem C4_witness :
    ([(default : Engine)] ≠ []) ∧
    ∃ kf Δ ds,
      Poly.adjust_sync ⟨[(default : Engine)]⟩ (mkBus (fun _ _ => 0)) =
          (Except.ok ds, ⟨(fun _ _ => 0), kf, Δ⟩) ∧
        ds.getD (refIndex [(default : Engine)]) 1 = 0 ∧
        counterWrites Δ = [] ∧
        burstCount Δ = [(default : Engine)].length :=
  ⟨by simp,
    (C4_reference_device [(default : Engine)] (fun _ _ => 0) (by simp)).2.2⟩

/-- C7: `wait_reset` succeeds exactly when one of the first 5 Status0 polls
reads `reset_on` clear, returning at the first such poll with no further
polls or delays; it sleeps 100 ms after each failed poll, and it fails with
ResetTimeout exactly when all 5 polls read `reset_on` set, after 500 ms of
total sleep. -/
theorem C7_wait_reset (e : Engine) (o : Nat → Nat → Nat) :
    ((∀ i, i < 5 → o i 1 % 2 = 1) →
      e.wait_reset (mkBus o) =
          (Except.error Err.ResetTimeout, ⟨o, 5, failPollsFrom e.cs o 0 5⟩) ∧
        delaysTotal (failPollsFrom e.cs o 0 5) = 500) ∧
    (∀ j, j < 5 → (∀ i, i < j → o i 1 % 2 = 1) → o j 1 % 2 = 0 →
      e.wait_reset (mkBus o) =
          (Except.ok (), ⟨o, j + 1, failPollsFrom e.cs o 0 j ++ pollEvAt e.cs o j⟩) ∧
        delaysTotal (failPollsFrom e.cs o 0 j ++ pollEvAt e.cs o j) = j * 100) ∧
    ((∃ u, (e.wait_reset (mkBus o)).1 = Except.ok u) ↔ ∃ i, i < 5 ∧ o i 1 % 2 = 0) := by
  refine ⟨?_, ?_, ?_⟩
  · intro hall
    have h := waitResetLoop_timeout e o 5 0 [] (by simpa using hall)
    refine ⟨?_, delaysTotal_failPollsFrom e.cs o 5 0⟩
    simpa [Engine.wait_reset, mkBus] using h
  · intro j hj hset hclear
    have h := waitResetLoop_success e o 5 j 0 [] hj (by simpa using hset) (by simpa using hclear)
    constructor
    · simpa [Engine.wait_reset, mkBus] using h
    · rw [delaysTotal_append, delaysTotal_failPollsFrom]
      rfl
  · constructor
    · rintro ⟨u, hu⟩
      by_contra hno
      push_neg at hno
      have hall : ∀ i, i < 5 → o i 1 % 2 = 1 := by
        intro i hi
        have h2 := hno i hi
        omega
      have h := waitResetLoop_timeout e o 5 0 [] (by simpa using hall)
      rw [show e.wait_reset (mkBus o) = e.waitResetLoop 5 ⟨o, 0, []⟩ from rfl, h] at hu
      simp at hu
    · rintro ⟨i, hi, hz⟩
      have hex : ∃ j, o j 1 % 2 = 0 := ⟨i, hz⟩
      classical
      have hj5 : Nat.find hex < 5 := lt_of_le_of_lt (Nat.find_min' hex hz) hi
      have hset : ∀ m, m < Nat.find hex → o m 1 % 2 = 1 := by
        intro m hm
        have h2 := Nat.find_min hex hm
        omega
      have h := waitResetLoop_success e o 5 (Nat.find hex) 0 [] hj5
        (by simpa using hset) (by simpa using Nat.find_spec hex)
      refine ⟨(), ?_⟩
      rw [show e.wait_reset (mkBus o) = e.waitResetLoop 5 ⟨o, 0, []⟩ from rfl, h]

/-- C7 witness: with an all-ones oracle every poll reads `reset_on` set and
`wait_reset` times out after 500 ms of sleep. -/
theorem C7_witness :
    (∀ i, i < 5 → (fun _ _ => 1 : Nat → Nat → Nat) i 1 % 2 = 1) ∧
    ((default : Engine).wait_reset (mkBus (fun _ _ => 1)) =
        (Except.error Err.ResetTimeout,
         ⟨(fun _ _ => 1), 5, failPollsFrom (default : Engine).cs (fun _ _ => 1) 0 5⟩) ∧
      delaysTotal (failPollsFrom (default : Engine).cs (fun _ _ => 1) 0 5) = 500) :=
  ⟨fun _ _ => rfl, (C7_wait_reset (default : Engine) (fun _ _ => 1)).1 (fun _ _ => rfl)⟩

/-- C8: when the first device's Status0 poll reads `reset_on = 1` on all 5
attempts, the coordinator's `init` over any number of devices fails with
ResetTimeout after 5 sleeps of 100 ms (500 ms total), and no Config write
(command byte 0x40) appears on the bus for any device. -/
theorem C8_init_timeout (a0 : Engine) (rest : List Engine) (cfg0 : Config)
    (cfgs : List Config) (cal0 : Calibration) (cals : List Calibration) (emi0 : Nat)
    (emis : List Nat) (o : Nat → Nat → Nat)
    (hset : ∀ i, i < 5 → o i 1 % 2 = 1) :
    Poly.init ⟨a0 :: rest⟩ (cfg0 :: cfgs) (cal0 :: cals) (emi0 :: emis) (mkBus o) =
        (Except.error Err.ResetTimeout, ⟨o, 5, failPollsFrom a0.cs o 0 5⟩) ∧
      (failPollsFrom a0.cs o 0 5).countP isCfgWrite = 0 ∧
      delaysTotal (failPollsFrom a0.cs o 0 5) = 500 ∧
      (failPollsFrom a0.cs o 0 5).countP isDelay = 5 :=
  ⟨poly_init_timeout a0 rest cfg0 cfgs cal0 cals emi0 emis o hset,
   cfgWrite_failPollsFrom a0.cs o 5 0,
   delaysTotal_failPollsFrom a0.cs o 5 0,
   delayCount_failPollsFrom a0.cs o 5 0⟩

/-- C8 witness: three default devices against an all-ones oracle. -/
theorem C8_witness :
    (∀ i, i < 5 → (fun _ _ => 1 : Nat → Nat → Nat) i 1 % 2 = 1) ∧
    (Poly.init ⟨[(default : Engine), default, default]⟩
          [Config.default, Config.default, Config.default]
          [Calibration.default, Calibration.default, Calibration.default]
          [0xFF, 0xFF, 0xFF] (mkBus (fun _ _ => 1)) =
        (Except.error Err.ResetTimeout,
         ⟨(fun _ _ => 1), 5, failPollsFrom (default : Engine).cs (fun _ _ => 1) 0 5⟩) ∧
      (failPollsFrom (default : Engine).cs (fun _ _ => 1) 0 5).countP isCfgWrite = 0 ∧
      delaysTotal (failPollsFrom (default : Engine).cs (fun _ _ => 1) 0 5) = 500 ∧
      (failPollsFrom (default : Engine).cs (fun _ _ => 1) 0 5).countP isDelay = 5) :=
  ⟨fun _ _ => rfl,
   C8_init_timeout (default : Engine) [default, default] Config.default
     [Config.default, Config.default] Calibration.default
     [Calibration.default, Calibration.default] 0xFF [0xFF, 0xFF]
     (fun _ _ => 1) (fun _ _ => rfl)⟩

/-- C9: `read_reg` fails with WriteOnlyRegister exactly on Lock and SyncSnap,
leaving the bus untouched (no transfer, no chip-select toggle), and otherwise
sends the two bytes [(addr << 3) | 0x04, 0]; `write_reg` fails with
ReadOnlyRegister exactly outside Config, Lock, SyncSnap, Counter0, Counter1,
EmiCtrl, again leaving the bus untouched, and otherwise sends
[(addr << 3) | 0x00, content]. -/
theorem C9_register_access (e : Engine) (reg : Register) (content : Nat)
    (o : Nat → Nat → Nat) (k : Nat) (log : List Ev) :
    (reg.is_write_only = true ↔ (reg = Register.Lock ∨ reg = Register.SyncSnap)) ∧
    (reg.is_write_only = true →
      e.read_reg reg ⟨o, k, log⟩ = (Except.error Err.WriteOnlyRegister, ⟨o, k, log⟩)) ∧
    (reg.is_write_only = false →
      e.read_reg reg ⟨o, k, log⟩ =
        (Except.ok (recvBytes o k 2),
         ⟨o, k + 1,
          log ++ [Ev.csLow e.cs,
                  Ev.xfer e.cs [reg.addr <<< 3 ||| 0x04, 0] (recvBytes o k 2),
                  Ev.csHigh e.cs]⟩)) ∧
    (reg.is_read_only = false ↔
      (reg = Register.Config ∨ reg = Register.Lock ∨ reg = Register.SyncSnap ∨
        reg = Register.Counter0 ∨ reg = Register.Counter1 ∨ reg = Register.EmiCtrl)) ∧
    (reg.is_read_only = true →
      e.write_reg reg content ⟨o, k, log⟩ =
        (Except.error Err.ReadOnlyRegister, ⟨o, k, log⟩)) ∧
    (reg.is_read_only = false →
      e.write_reg reg content ⟨o, k, log⟩ =
        (Except.ok (),
         ⟨o, k + 1,
          log ++ [Ev.csLow e.cs,
                  Ev.xfer e.cs [reg.addr <<< 3 ||| 0x00, content] (recvBytes o k 2),
                  Ev.csHigh e.cs]⟩)) := by
  refine ⟨?_, ?_, ?_, ?_, ?_, ?_⟩
  · cases reg <;> decide
  · intro h
    simp [Engine.read_reg, h]
  · intro h
    exact read_reg_run e reg h o k log
  · cases reg <;> decide
  · intro h
    simp [Engine.write_reg, h]
  · intro h
    exact write_reg_run e reg content h o k log

/-- C9 witness: reading Lock fails without touching the bus; writing Config
sends the 0x40 command byte. -/
theorem C9_witness :
    (Register.Lock.is_write_only = true ∧
      (default : Engine).read_reg Register.Lock ⟨(fun _ _ => 0), 0, []⟩ =
        (Except.error Err.WriteOnlyRegister, ⟨(fun _ _ => 0), 0, []⟩)) ∧
    (Register.Config.is_read_only = false ∧
      (default : Engine).write_reg Register.Config 0 ⟨(fun _ _ => 0), 0, []⟩ =
        (Except.ok (),
         ⟨(fun _ _ => 0), 1,
          [] ++ [Ev.csLow (default : Engine).cs,
                 Ev.xfer (default : Engine).cs [Register.Config.addr <<< 3 ||| 0x00, 0]
                   (recvBytes (fun _ _ => 0) 0 2),
                 Ev.csHigh (default : Engine).cs]⟩)) :=
  ⟨⟨rfl,
    (C9_register_access (default : Engine) Register.Lock 0 (fun _ _ => 0) 0 []).2.1 rfl⟩,
   ⟨rfl,
    (C9_register_access (default : Engine) Register.Config 0 (fun _ _ => 0) 0 []).2.2.2.2.2 rfl⟩⟩

end Ade791xModel
